import Mathlib

/-!
Verification of `gaia_isochrones/stellar.py` (dfm/gaia-isochrones).

The two procedures under scrutiny are `get_gaia_data` (catalog lookup) and
`fit_gaia_data` (model fit), shallowly embedded here.  Numeric values are
rationals; the transcendental operations `np.sqrt`, `np.exp`, `np.log` are
abstracted as an explicit `MathOps` parameter, so every definition stays
computable.  Catalog floats, which `np.isfinite` classifies, are modelled by
`FVal`: a finite rational or a marker for a non-finite float (NaN or an
infinity).  External collaborators (the Gaia cone-search service, the
isochrones model's `lnpost`/`ic`, the dynesty sampler together with the
equal-weight resampling, and the filesystem) are oracles passed in as
function arguments, exactly at the narrow interfaces the script uses.
-/

namespace GaiaIsochrones

/-- The three Gaia photometric bands used throughout `stellar.py`. -/
inductive Band
  | G
  | BP
  | RP
deriving DecidableEq

/-- The transcendental operations of numpy that the script calls.  The
embedding is parametric in them. -/
structure MathOps where
  sqrt : ℚ → ℚ
  exp : ℚ → ℚ
  log : ℚ → ℚ

/-- A catalog float: a finite value, or a non-finite one (NaN or ±inf),
which is exactly the distinction `np.isfinite` draws. -/
inductive FVal
  | fin (x : ℚ)
  | nonfin
deriving DecidableEq

namespace FVal

/-- `np.isfinite`. -/
def isFinite : FVal → Bool
  | fin _ => true
  | nonfin => false

/-- Float addition: any operation on a non-finite operand yields a
non-finite result (inf + x, NaN + x, inf - inf are all non-finite). -/
def add : FVal → FVal → FVal
  | fin x, fin y => fin (x + y)
  | _, _ => nonfin

/-- Float multiplication, with the same non-finite propagation. -/
def mul : FVal → FVal → FVal
  | fin x, fin y => fin (x * y)
  | _, _ => nonfin

/-- Float division: division by zero produces ±inf or NaN, hence
non-finite. -/
def div : FVal → FVal → FVal
  | fin x, fin y => if y = 0 then nonfin else fin (x / y)
  | _, _ => nonfin

/-- `np.sqrt` through the abstract operations.  In `stellar.py` it is only
applied to a square plus a positive constant, so a finite argument is
never negative. -/
def sqrtF (ops : MathOps) : FVal → FVal
  | fin x => fin (ops.sqrt x)
  | nonfin => nonfin

/-- `float(...)` on a value already checked finite. -/
def toFloat : FVal → ℚ
  | fin x => x
  | nonfin => 0

end FVal

/-- One row of the cone-search result table, with the columns
`get_gaia_data` reads: `parallax`, `parallax_error`, and per band
`phot_<band>_mean_mag`, `phot_<band>_mean_flux`,
`phot_<band>_mean_flux_error`. -/
structure GaiaRow where
  parallax : FVal
  parallax_error : FVal
  phot_mean_mag : Band → FVal
  phot_mean_flux : Band → FVal
  phot_mean_flux_error : Band → FVal

/-- The three `ValueError`s `get_gaia_data` can raise, one per message:
"no matches found", "non finite parallax", "non finite params". -/
inductive GaiaError
  | noMatches
  | nonFiniteParallax
  | nonFiniteParams
deriving DecidableEq

/-- A value stored in the returned data dictionary: a (value, error) pair
or a bare scalar such as `max_distance`. -/
inductive Val
  | pair (x y : ℚ)
  | scalar (x : ℚ)
deriving DecidableEq

/-- The data dictionary built by `get_gaia_data`, keyed by field name. -/
abbrev Record := String → Option Val

/-- `params[k] = v`: one dictionary assignment. -/
def dinsert (d : Record) (k : String) (v : Val) : Record :=
  fun k2 => if k2 = k then some v else d k2

/-- `dict(params, **kwargs)`: the kwargs entries are written after the
`params` entries, so on a key collision the kwargs value wins. -/
def mergeKw (params kwargs : Record) : Record :=
  fun k =>
    match kwargs k with
    | some v => some v
    | none => params k

/-- The predicate of `r[np.abs(r["phot_g_mean_mag"] - approx_mag) < mag_tol]`:
a row is kept exactly when its G magnitude is within `mag_tol` of
`approx_mag` under the strict float comparison.  A NaN or infinite
magnitude compares false, so such a row is dropped. -/
def magFilterKeep (approx_mag mag_tol : ℚ) (r : GaiaRow) : Bool :=
  match r.phot_mean_mag Band.G with
  | .fin x => decide (|x - approx_mag| < mag_tol)
  | .nonfin => false

/-- The optional magnitude filtering step of `get_gaia_data`. -/
def filterByMag (approx_mag : Option ℚ) (mag_tol : ℚ)
    (rows : List GaiaRow) : List GaiaRow :=
  match approx_mag with
  | some m => rows.filter (magFilterKeep m mag_tol)
  | none => rows

/-- `plx = r["parallax"] + 0.082`. -/
def corrected_plx (r : GaiaRow) : FVal :=
  FVal.add r.parallax (.fin 0.082)

/-- `plx_err = np.sqrt(r["parallax_error"] ** 2 + 0.033 ** 2)`. -/
def corrected_plx_err (ops : MathOps) (r : GaiaRow) : FVal :=
  FVal.sqrtF ops
    (FVal.add (FVal.mul r.parallax_error r.parallax_error) (.fin (0.033 ^ 2)))

/-- `factor = 2.5 / np.log(10)`. -/
def factor (ops : MathOps) : ℚ := 2.5 / ops.log 10

/-- `mag = float(r["phot_<band>_mean_mag"])` before the `float` cast. -/
def band_mag (r : GaiaRow) (b : Band) : FVal := r.phot_mean_mag b

/-- The propagated magnitude error of one band:
`err = flux_error; err /= flux; err *= factor`. -/
def band_err (ops : MathOps) (r : GaiaRow) (b : Band) : FVal :=
  FVal.mul (FVal.div (r.phot_mean_flux_error b) (r.phot_mean_flux b))
    (.fin (factor ops))

/-- The condition of the per-band finiteness check
`np.isfinite(mag) and np.isfinite(err)`. -/
def bandOk (ops : MathOps) (r : GaiaRow) (b : Band) : Bool :=
  (band_mag r b).isFinite && (band_err ops r b).isFinite

/-- The condition of the parallax finiteness check
`np.isfinite(plx) and np.isfinite(plx_err)`. -/
def plxOk (ops : MathOps) (r : GaiaRow) : Bool :=
  (corrected_plx r).isFinite && (corrected_plx_err ops r).isFinite

/-- The dictionary keys `"G"`, `"BP"`, `"RP"`. -/
def bandKey : Band → String
  | .G => "G"
  | .BP => "BP"
  | .RP => "RP"

/-- `["G", "BP", "RP"]`, the band loop order of `get_gaia_data`. -/
def bandList : List Band := [Band.G, Band.BP, Band.RP]

/-- The band loop of `get_gaia_data`: for each band in order, compute the
magnitude and its propagated error, raise "non finite params" at the first
band where either is non-finite, otherwise store `params[band] = (mag, err)`. -/
def bandLoop (ops : MathOps) (r : GaiaRow) :
    List Band → Record → Except GaiaError Record
  | [], d => .ok d
  | b :: rest, d =>
    if bandOk ops r b then
      bandLoop ops r rest
        (dinsert d (bandKey b) (.pair (band_mag r b).toFloat (band_err ops r b).toFloat))
    else .error .nonFiniteParams

/-- `np.clip(x, lo, np.inf)`: only the lower bound is active. -/
def np_clip_lo (x lo : ℚ) : ℚ := if x < lo then lo else x

/-- The body of `get_gaia_data` once the first candidate row `r` is
selected: the parallax correction and its finiteness check, the band loop,
`params["parallax"]`, and the conditional `params["max_distance"]`. -/
def computeParams (ops : MathOps) (r : GaiaRow) : Except GaiaError Record :=
  let plx := corrected_plx r
  let plx_err := corrected_plx_err ops r
  if plxOk ops r then
    match bandLoop ops r bandList (fun _ => none) with
    | .error e => .error e
    | .ok d =>
      let d := dinsert d "parallax" (.pair plx.toFloat plx_err.toFloat)
      let d :=
        if 0 < plx.toFloat then
          dinsert d "max_distance" (.scalar (np_clip_lo (2000 / plx.toFloat) 100))
        else d
      .ok d
  else .error .nonFiniteParallax

/-- `get_gaia_data`: the cone-search result `rows` (already ordered by the
service), the optional magnitude filter, selection of the first remaining
candidate, the parameter construction, and the final `dict(params, **kwargs)`. -/
def get_gaia_data (ops : MathOps) (rows : List GaiaRow) (approx_mag : Option ℚ)
    (mag_tol : ℚ) (kwargs : Record) : Except GaiaError Record :=
  match filterByMag approx_mag mag_tol rows with
  | [] => .error .noMatches
  | r :: _ =>
    match computeParams ops r with
    | .error e => .error e
    | .ok p => .ok (mergeKw p kwargs)

/-! ## The model-fit side (`fit_gaia_data`) -/

/-- A pandas DataFrame, seen as a mapping from column name to column. -/
abbrev DataFrame := String → List ℚ

/-- The two tables persisted in `star.h5`. -/
structure Artifact where
  samples : DataFrame
  derived_samples : DataFrame

/-- The slice of the `isochrones.SingleStarModel` object the script touches:
its `kwargs` dictionary of band parameters, and the `_samples` /
`_derived_samples` attributes it sets. -/
structure Model where
  kwargs : Band → ℚ × ℚ
  samples : Option DataFrame
  derived_samples : Option DataFrame

/-- `mod = isochrones.SingleStarModel(mist, **gaia_data)`.  The `**`
unpacking hands the constructor a fresh dictionary, so `mod.kwargs` is the
model's own working copy of the band entries, distinct from the caller's
`gaia_data` dictionary. -/
def SingleStarModel (gaia : Band → ℚ × ℚ) : Model :=
  { kwargs := gaia, samples := none, derived_samples := none }

/-- `jitter_vars = ["G", "BP", "RP"]`. -/
def jitter_vars : List Band := [Band.G, Band.BP, Band.RP]

/-- The mutable data `loglike` closes over: the canonical `gaia_data`
record and the model's `mod.kwargs` working copy. -/
structure LoglikeState where
  gaia_data : Band → ℚ × ℚ
  kwargs : Band → ℚ × ℚ

/-- The closure state right after `SingleStarModel(mist, **gaia_data)`. -/
def initLoglikeState (gaia : Band → ℚ × ℚ) : LoglikeState :=
  { gaia_data := gaia, kwargs := (SingleStarModel gaia).kwargs }

/-- The `for i, k in enumerate(jitter_vars)` loop of `loglike`, threading
the running `lp0` and the `mod.kwargs` dictionary:
`err = np.sqrt(gaia_data[k][1] ** 2 + np.exp(theta[ind0 + i]))`,
`lp0 -= 2 * np.log(err)`, `mod.kwargs[k] = (gaia_data[k][0], err)`. -/
def loglikeLoop (ops : MathOps) (gaia : Band → ℚ × ℚ) (theta : ℕ → ℚ)
    (ind0 : ℕ) : List (ℕ × Band) → ℚ × (Band → ℚ × ℚ) → ℚ × (Band → ℚ × ℚ)
  | [], acc => acc
  | (i, k) :: rest, (lp0, kw) =>
    let err := ops.sqrt ((gaia k).2 ^ 2 + ops.exp (theta (ind0 + i)))
    loglikeLoop ops gaia theta ind0 rest
      (lp0 - 2 * ops.log err, Function.update kw k ((gaia k).1, err))

/-- `-1e10`, the floor of the clipping step. -/
def LOW : ℚ := -(10 ^ 10)

/-- `loglike(theta)`.  The external `mod.lnpost` is an oracle reading the
(just updated) `mod.kwargs` and the native parameters
`theta[: mod.n_params]`; its float result may be non-finite, hence `FVal`.
In this rational-valued model the loop's `lp0` is always finite (each
`err` is a rational), so `lp = lp0 + mod.lnpost(...)` is finite exactly
when the oracle's value is; `np.clip(lp, -1e10, np.inf)` keeps only the
lower bound. -/
def loglike (ops : MathOps) (lnpost : (Band → ℚ × ℚ) → List ℚ → FVal)
    (n_params : ℕ) (s : LoglikeState) (theta : ℕ → ℚ) : ℚ × LoglikeState :=
  let r := loglikeLoop ops s.gaia_data theta n_params jitter_vars.enum (0, s.kwargs)
  let lp := FVal.add (.fin r.1) (lnpost r.2 ((List.range n_params).map theta))
  let ret : ℚ :=
    match lp with
    | .fin x => np_clip_lo x LOW
    | .nonfin => LOW
  (ret, { s with kwargs := r.2 })

/-- Any number of `loglike` evaluations in sequence, as the sampler
performs them. -/
def evalLoglikeMany (ops : MathOps) (lnpost : (Band → ℚ × ℚ) → List ℚ → FVal)
    (n_params : ℕ) : List (ℕ → ℚ) → LoglikeState → LoglikeState
  | [], s => s
  | theta :: rest, s =>
    evalLoglikeMany ops lnpost n_params rest (loglike ops lnpost n_params s theta).2

/-- `os.path.join` for the two-component joins the script performs. -/
def pathJoin (a b : String) : String := a ++ "/" ++ b

/-- The derived-sample post-processing of `fit_gaia_data`:
`mod._derived_samples = mod.ic(...)`, then
`mod._derived_samples["parallax"] = 1000.0 / df["distance"]`,
`mod._derived_samples["distance"] = df["distance"]`,
`mod._derived_samples["AV"] = df["AV"]`. -/
def postProcessDerived (ic : DataFrame → DataFrame) (df : DataFrame) : DataFrame :=
  let derived := ic df
  let derived := Function.update derived "parallax" ((df "distance").map (fun d => 1000 / d))
  let derived := Function.update derived "distance" (df "distance")
  Function.update derived "AV" (df "AV")

/-- `fit_gaia_data(name, gaia_data, clobber, output_dir)`.  `version` is
the package `__version__`; `fs` is the filesystem oracle giving the
persisted artifact at a path, read at `os.path.exists(fn)`; `df` is the
equal-weight posterior DataFrame the external sampler-plus-resampling
produces on a fresh run; `ic` is the model's forward mapping
`mod.ic(...)`.  Returns the model and whether the sampler was invoked:
when not clobbering and the samples file exists, the persisted sample
sets are loaded into the freshly constructed model and the sampler is
never run; otherwise the fit runs and the derived samples are
post-processed. -/
def fit_gaia_data (name : String) (gaia : Band → ℚ × ℚ) (clobber : Bool)
    (output_dir version : String) (fs : String → Option Artifact)
    (df : DataFrame) (ic : DataFrame → DataFrame) : Model × Bool :=
  let mod := SingleStarModel gaia
  let dir := pathJoin (pathJoin output_dir version) name
  let fn := pathJoin dir "star.h5"
  match clobber, fs fn with
  | false, some art =>
    ({ mod with samples := some art.samples,
                derived_samples := some art.derived_samples }, false)
  | _, _ =>
    let derived := postProcessDerived ic df
    ({ mod with samples := some df, derived_samples := some derived }, true)

/-! ## Helper lemmas -/

/-- The enumerated jitter band list, as `enumerate(jitter_vars)` yields it. -/
lemma jitter_enum : jitter_vars.enum = [(0, Band.G), (1, Band.BP), (2, Band.RP)] := by
  decide

/-- Position of each band in the jitter loop. -/
def bandIndex : Band → ℕ
  | .G => 0
  | .BP => 1
  | .RP => 2

lemma np_clip_lo_eq_max (x lo : ℚ) : np_clip_lo x lo = max x lo := by
  unfold np_clip_lo
  rcases lt_or_le x lo with h | h
  · rw [if_pos h, max_eq_right h.le]
  · rw [if_neg (not_lt.2 h), max_eq_left h]

lemma np_clip_lo_ge (x lo : ℚ) : lo ≤ np_clip_lo x lo := by
  unfold np_clip_lo
  split
  · exact le_rfl
  · exact le_of_not_lt (by assumption)

lemma loglikeLoop_fst (ops : MathOps) (gaia : Band → ℚ × ℚ) (theta : ℕ → ℚ)
    (n : ℕ) (kw0 : Band → ℚ × ℚ) :
    (loglikeLoop ops gaia theta n jitter_vars.enum (0, kw0)).1 =
      0 - 2 * ops.log (ops.sqrt ((gaia Band.G).2 ^ 2 + ops.exp (theta (n + 0))))
        - 2 * ops.log (ops.sqrt ((gaia Band.BP).2 ^ 2 + ops.exp (theta (n + 1))))
        - 2 * ops.log (ops.sqrt ((gaia Band.RP).2 ^ 2 + ops.exp (theta (n + 2)))) := by
  rw [jitter_enum]
  rfl

lemma loglikeLoop_snd (ops : MathOps) (gaia : Band → ℚ × ℚ) (theta : ℕ → ℚ)
    (n : ℕ) (kw0 : Band → ℚ × ℚ) :
    (loglikeLoop ops gaia theta n jitter_vars.enum (0, kw0)).2 =
      (fun k => ((gaia k).1, ops.sqrt ((gaia k).2 ^ 2 + ops.exp (theta (n + bandIndex k))))) := by
  rw [jitter_enum]
  funext k
  cases k <;> rfl

/-! ## Claim theorems -/

/-- Claim C1: for every parameter vector, the log-likelihood wrapper built
by `fit_gaia_data` computes, for each band in order, the inflated error
`sqrt(original_error^2 + exp(theta[n_params + k]))`, subtracts
`2 * ln(err)` for each band from the running correction, substitutes
`(magnitude, err)` as that band's model parameter for the evaluation, and
returns the correction total plus the external model's log-posterior at
`theta[0 .. n_params)`, clipped below at `-1e10`. -/
theorem loglike_per_band_inflation (ops : MathOps)
    (lnpost : (Band → ℚ × ℚ) → List ℚ → FVal) (n : ℕ) (s : LoglikeState)
    (theta : ℕ → ℚ) :
    (loglike ops lnpost n s theta).2.kwargs =
      (fun k => ((s.gaia_data k).1,
        ops.sqrt ((s.gaia_data k).2 ^ 2 + ops.exp (theta (n + bandIndex k))))) ∧
    (loglike ops lnpost n s theta).1 =
      (match lnpost
          (fun k => ((s.gaia_data k).1,
            ops.sqrt ((s.gaia_data k).2 ^ 2 + ops.exp (theta (n + bandIndex k)))))
          ((List.range n).map theta) with
      | .fin x =>
          max
            (-(2 * ops.log (ops.sqrt ((s.gaia_data Band.G).2 ^ 2 + ops.exp (theta (n + 0))))
              + 2 * ops.log (ops.sqrt ((s.gaia_data Band.BP).2 ^ 2 + ops.exp (theta (n + 1))))
              + 2 * ops.log (ops.sqrt ((s.gaia_data Band.RP).2 ^ 2 + ops.exp (theta (n + 2)))))
              + x)
            LOW
      | .nonfin => LOW) := by
  have hfst := loglikeLoop_fst ops s.gaia_data theta n s.kwargs
  have hsnd := loglikeLoop_snd ops s.gaia_data theta n s.kwargs
  simp only [loglike]
  rw [hfst, hsnd]
  refine ⟨rfl, ?_⟩
  cases hl : lnpost
      (fun k => ((s.gaia_data k).1,
        ops.sqrt ((s.gaia_data k).2 ^ 2 + ops.exp (theta (n + bandIndex k)))))
      ((List.range n).map theta) with
  | fin x =>
      simp only [FVal.add, np_clip_lo_eq_max]
      congr 1
      ring
  | nonfin =>
      simp only [FVal.add]

/-- Claim C2: for every input vector, the log-likelihood wrapper returns a
(finite, rational-valued) result that is at least `-1e10`; when the total
log-probability is non-finite — in this model, exactly when the external
log-posterior oracle returns a non-finite float — it returns exactly
`-1e10`, otherwise the total clipped to that floor. -/
theorem loglike_finite_floor (ops : MathOps)
    (lnpost : (Band → ℚ × ℚ) → List ℚ → FVal) (n : ℕ) (s : LoglikeState)
    (theta : ℕ → ℚ) :
    LOW ≤ (loglike ops lnpost n s theta).1 ∧
    ((lnpost (loglike ops lnpost n s theta).2.kwargs
        ((List.range n).map theta)).isFinite = false →
      (loglike ops lnpost n s theta).1 = LOW) := by
  simp only [loglike]
  cases hl : lnpost
      (loglikeLoop ops s.gaia_data theta n jitter_vars.enum (0, s.kwargs)).2
      ((List.range n).map theta) with
  | fin x =>
      refine ⟨np_clip_lo_ge _ _, ?_⟩
      intro hfin
      simp [FVal.isFinite] at hfin
  | nonfin =>
      exact ⟨le_rfl, fun _ => rfl⟩

lemma evalLoglikeMany_gaia_data (ops : MathOps)
    (lnpost : (Band → ℚ × ℚ) → List ℚ → FVal) (n : ℕ) :
    ∀ (thetas : List (ℕ → ℚ)) (s : LoglikeState),
      (evalLoglikeMany ops lnpost n thetas s).gaia_data = s.gaia_data
  | [], _ => rfl
  | theta :: rest, s => by
      rw [evalLoglikeMany, evalLoglikeMany_gaia_data ops lnpost n rest]
      rfl

/-- Claim C10: evaluating the log-likelihood wrapper any number of times
leaves the canonical `gaia_data` record unchanged — the per-evaluation
jitter inflation writes only to the model's working copy `mod.kwargs`
created at model construction. -/
theorem loglike_never_mutates_gaia_data (ops : MathOps)
    (lnpost : (Band → ℚ × ℚ) → List ℚ → FVal) (n : ℕ)
    (thetas : List (ℕ → ℚ)) (gaia : Band → ℚ × ℚ) :
    (evalLoglikeMany ops lnpost n thetas (initLoglikeState gaia)).gaia_data = gaia := by
  rw [evalLoglikeMany_gaia_data]
  rfl

/-- The two possible outcomes of `fit_gaia_data`: the short-circuit load of
a persisted artifact, or a fresh run ending in post-processed samples. -/
lemma fit_cases (name : String) (gaia : Band → ℚ × ℚ) (clobber : Bool)
    (output_dir version : String) (fs : String → Option Artifact)
    (df : DataFrame) (ic : DataFrame → DataFrame) :
    (∃ art, clobber = false ∧
        fs (pathJoin (pathJoin (pathJoin output_dir version) name) "star.h5") = some art ∧
        fit_gaia_data name gaia clobber output_dir version fs df ic =
          ({ SingleStarModel gaia with
              samples := some art.samples,
              derived_samples := some art.derived_samples }, false)) ∨
      fit_gaia_data name gaia clobber output_dir version fs df ic =
        ({ SingleStarModel gaia with
            samples := some df,
            derived_samples := some (postProcessDerived ic df) }, true) := by
  cases clobber with
  | false =>
      cases hfs : fs (pathJoin (pathJoin (pathJoin output_dir version) name) "star.h5") with
      | none =>
          right
          simp only [fit_gaia_data]
          rw [hfs]
      | some art =>
          left
          refine ⟨art, rfl, rfl, ?_⟩
          simp only [fit_gaia_data]
          rw [hfs]
  | true =>
      right
      rfl

lemma postProcessDerived_distance (ic : DataFrame → DataFrame) (df : DataFrame) :
    postProcessDerived ic df "distance" = df "distance" := by
  unfold postProcessDerived
  rw [Function.update_noteq (by decide), Function.update_same]

lemma postProcessDerived_parallax (ic : DataFrame → DataFrame) (df : DataFrame) :
    postProcessDerived ic df "parallax" = (df "distance").map (fun d => 1000 / d) := by
  unfold postProcessDerived
  rw [Function.update_noteq (by decide), Function.update_noteq (by decide),
    Function.update_same]

/-- Claim C3: if `clobber` is false and a samples file already exists at
`output_dir/version/name/star.h5`, `fit_gaia_data` loads the persisted
posterior and derived sample sets into a freshly constructed model and
returns it without invoking the sampler, the sample sets being exactly the
persisted ones. -/
theorem fit_short_circuits_on_existing_artifact (name : String)
    (gaia : Band → ℚ × ℚ) (output_dir version : String)
    (fs : String → Option Artifact) (df : DataFrame) (ic : DataFrame → DataFrame)
    (art : Artifact)
    (h : fs (pathJoin (pathJoin (pathJoin output_dir version) name) "star.h5") = some art) :
    fit_gaia_data name gaia false output_dir version fs df ic =
      ({ SingleStarModel gaia with
          samples := some art.samples,
          derived_samples := some art.derived_samples }, false) := by
  simp only [fit_gaia_data]
  rw [h]

/-- A trivial instantiation of the abstract numpy operations, for concrete
witnesses. -/
def opsW : MathOps := { sqrt := fun x => x, exp := fun x => x, log := fun x => x }

def artW : Artifact :=
  { samples := fun _ => [1], derived_samples := fun _ => [2] }

def fsW : String → Option Artifact := fun _ => some artW

theorem fit_short_circuits_on_existing_artifact_witness :
    fit_gaia_data "kic123" (fun _ => (1, 1)) false "results" "0.0.1" fsW
        (fun _ => []) (fun d => d) =
      ({ SingleStarModel (fun _ => (1, 1)) with
          samples := some artW.samples,
          derived_samples := some artW.derived_samples }, false) :=
  fit_short_circuits_on_existing_artifact "kic123" (fun _ => (1, 1)) "results"
    "0.0.1" fsW (fun _ => []) (fun d => d) artW rfl

/-- Claim C9: in the derived sample set produced by a fresh run of
`fit_gaia_data` (one that actually invoked the sampler), the parallax
column is recomputed as `1000 / distance` row by row from the posterior
distance column, and the retained distance column is that same posterior
distance column. -/
theorem fit_derived_parallax_relation (name : String) (gaia : Band → ℚ × ℚ)
    (clobber : Bool) (output_dir version : String)
    (fs : String → Option Artifact) (df : DataFrame) (ic : DataFrame → DataFrame)
    (h : (fit_gaia_data name gaia clobber output_dir version fs df ic).2 = true) :
    ∃ derived,
      (fit_gaia_data name gaia clobber output_dir version fs df ic).1.derived_samples
        = some derived ∧
      derived "distance" = df "distance" ∧
      derived "parallax" = (derived "distance").map (fun d => 1000 / d) := by
  rcases fit_cases name gaia clobber output_dir version fs df ic with
    ⟨art, _, _, heq⟩ | heq
  · rw [heq] at h
    simp at h
  · refine ⟨postProcessDerived ic df, ?_, postProcessDerived_distance ic df, ?_⟩
    · rw [heq]
    · rw [postProcessDerived_parallax, postProcessDerived_distance]

def dfW : DataFrame := fun k => if k = "distance" then [4, 5] else [1]

def icW : DataFrame → DataFrame := fun _ => fun _ => [3]

theorem fit_derived_parallax_relation_witness :
    ∃ derived,
      (fit_gaia_data "kic123" (fun _ => (1, 1)) true "results" "0.0.1" fsW
          dfW icW).1.derived_samples = some derived ∧
      derived "distance" = dfW "distance" ∧
      derived "parallax" = (derived "distance").map (fun d => 1000 / d) :=
  fit_derived_parallax_relation "kic123" (fun _ => (1, 1)) true "results" "0.0.1"
    fsW dfW icW rfl

/-! ## Characterization of the catalog lookup -/

lemma bandLoop_ok_iff (ops : MathOps) (r : GaiaRow) (l : List Band) :
    ∀ d : Record,
      (∃ d2, bandLoop ops r l d = .ok d2) ↔ ∀ b ∈ l, bandOk ops r b = true := by
  induction l with
  | nil => intro d; simp [bandLoop]
  | cons b rest ih =>
      intro d
      cases hb : bandOk ops r b with
      | true =>
          simp only [bandLoop, hb, if_true]
          rw [ih]
          simp [hb]
      | false => simp [bandLoop, hb]

lemma bandLoop_error_iff (ops : MathOps) (r : GaiaRow) (l : List Band) :
    ∀ (d : Record) (e : GaiaError),
      bandLoop ops r l d = .error e ↔
        e = .nonFiniteParams ∧ ∃ b ∈ l, bandOk ops r b = false := by
  induction l with
  | nil => intro d e; simp [bandLoop]
  | cons b rest ih =>
      intro d e
      cases hb : bandOk ops r b with
      | true =>
          simp only [bandLoop, hb, if_true]
          rw [ih]
          simp [hb]
      | false =>
          simp only [bandLoop, hb, Bool.false_eq_true, if_false]
          constructor
          · intro h
            injection h with he
            exact ⟨he.symm, b, by simp, hb⟩
          · rintro ⟨he, -⟩
            rw [he]

lemma computeParams_ok_iff (ops : MathOps) (r : GaiaRow) :
    (∃ d, computeParams ops r = .ok d) ↔
      plxOk ops r = true ∧ ∀ b ∈ bandList, bandOk ops r b = true := by
  simp only [computeParams]
  cases hplx : plxOk ops r with
  | true =>
      simp only [if_true]
      cases hbl : bandLoop ops r bandList (fun _ => none) with
      | error e =>
          simp only []
          constructor
          · rintro ⟨d, hd⟩; cases hd
          · rintro ⟨-, hall⟩
            rcases (bandLoop_ok_iff ops r bandList (fun _ => none)).mpr hall with ⟨d2, hd2⟩
            rw [hbl] at hd2
            cases hd2
      | ok d0 =>
          simp only []
          refine ⟨fun _ => ⟨trivial, ?_⟩, fun _ => ⟨_, rfl⟩⟩
          exact (bandLoop_ok_iff ops r bandList (fun _ => none)).mp ⟨d0, hbl⟩
  | false =>
      simp [hplx]

lemma computeParams_error_iff (ops : MathOps) (r : GaiaRow) (e : GaiaError) :
    computeParams ops r = .error e ↔
      (e = .nonFiniteParallax ∧ plxOk ops r = false) ∨
        (e = .nonFiniteParams ∧ plxOk ops r = true ∧
          ∃ b ∈ bandList, bandOk ops r b = false) := by
  simp only [computeParams]
  cases hplx : plxOk ops r with
  | true =>
      simp only [if_true]
      cases hbl : bandLoop ops r bandList (fun _ => none) with
      | error e2 =>
          have := (bandLoop_error_iff ops r bandList (fun _ => none) e2).mp hbl
          simp only []
          constructor
          · intro h
            injection h with he
            exact Or.inr ⟨by rw [← he, this.1], trivial, this.2⟩
          · rintro (⟨-, hbad⟩ | ⟨he, -, -⟩)
            · cases hbad
            · rw [he, this.1]
      | ok d0 =>
          simp only []
          constructor
          · intro h; cases h
          · rintro (⟨-, hbad⟩ | ⟨-, -, b, hb, hbad⟩)
            · cases hbad
            · rcases (bandLoop_ok_iff ops r bandList (fun _ => none)).mp
                ⟨d0, hbl⟩ b hb with hgood
              rw [hbad] at hgood
              cases hgood
  | false =>
      simp only [Bool.false_eq_true, if_false]
      constructor
      · intro h
        injection h with he
        exact Or.inl ⟨he.symm, trivial⟩
      · rintro (⟨he, -⟩ | ⟨-, hplx2, -⟩)
        · rw [he]
        · cases hplx2

/-- Claim C4: `get_gaia_data` fails exactly in these cases, each with its
own error kind, and returns a record without raising otherwise: the
no-match error when zero candidates remain after the cone search and the
optional magnitude filtering; the non-finite-parallax error when the
corrected parallax or its inflated error is not finite; the
non-finite-photometry error when, for some band, the catalog magnitude or
the propagated magnitude error is not finite. -/
theorem get_gaia_data_failure_modes (ops : MathOps) (rows : List GaiaRow)
    (approx_mag : Option ℚ) (mag_tol : ℚ) (kwargs : Record) :
    (get_gaia_data ops rows approx_mag mag_tol kwargs = .error .noMatches ↔
        filterByMag approx_mag mag_tol rows = []) ∧
    (get_gaia_data ops rows approx_mag mag_tol kwargs = .error .nonFiniteParallax ↔
        ∃ r rest, filterByMag approx_mag mag_tol rows = r :: rest ∧
          plxOk ops r = false) ∧
    (get_gaia_data ops rows approx_mag mag_tol kwargs = .error .nonFiniteParams ↔
        ∃ r rest, filterByMag approx_mag mag_tol rows = r :: rest ∧
          plxOk ops r = true ∧ ∃ b ∈ bandList, bandOk ops r b = false) ∧
    ((∃ rec, get_gaia_data ops rows approx_mag mag_tol kwargs = .ok rec) ↔
        ∃ r rest, filterByMag approx_mag mag_tol rows = r :: rest ∧
          plxOk ops r = true ∧ ∀ b ∈ bandList, bandOk ops r b = true) := by
  cases hf : filterByMag approx_mag mag_tol rows with
  | nil => simp [get_gaia_data, hf]
  | cons r rest =>
      simp only [get_gaia_data, hf]
      cases hcp : computeParams ops r with
      | error e =>
          rcases (computeParams_error_iff ops r e).mp hcp with
            ⟨he, hplx⟩ | ⟨he, hplx, hband⟩
          · subst he
            refine ⟨?_, ?_, ?_, ?_⟩
            · simp
            · simp [hplx]
            · simp [hplx]
            · constructor
              · rintro ⟨rec, hrec⟩; cases hrec
              · rintro ⟨r', rest', hrr, hplx2, -⟩
                rw [List.cons.injEq] at hrr
                rw [← hrr.1, hplx] at hplx2
                cases hplx2
          · subst he
            refine ⟨?_, ?_, ?_, ?_⟩
            · simp
            · constructor
              · intro h; cases h
              · rintro ⟨r', rest', hrr, hplx2⟩
                rw [List.cons.injEq] at hrr
                rw [← hrr.1, hplx] at hplx2
                cases hplx2
            · constructor
              · intro _
                exact ⟨r, rest, rfl, hplx, hband⟩
              · intro _
                rfl
            · constructor
              · rintro ⟨rec, hrec⟩; cases hrec
              · rintro ⟨r', rest', hrr, -, hall⟩
                rw [List.cons.injEq] at hrr
                rcases hband with ⟨b, hb, hbad⟩
                have := hall b hb
                rw [hrr.1] at hbad
                rw [hbad] at this
                cases this
      | ok d =>
          have hok := (computeParams_ok_iff ops r).mp ⟨d, hcp⟩
          refine ⟨?_, ?_, ?_, ?_⟩
          · simp
          · constructor
            · intro h; cases h
            · rintro ⟨r', rest', hrr, hplx2⟩
              rw [List.cons.injEq] at hrr
              rw [← hrr.1, hok.1] at hplx2
              cases hplx2
          · constructor
            · intro h; cases h
            · rintro ⟨r', rest', hrr, -, b, hb, hbad⟩
              rw [List.cons.injEq] at hrr
              have := hok.2 b hb
              rw [← hrr.1] at hbad
              rw [hbad] at this
              cases this
          · constructor
            · intro _
              exact ⟨r, rest, rfl, hok.1, hok.2⟩
            · intro _
              exact ⟨mergeKw d kwargs, rfl⟩

/-- The band loop only writes the band keys: any other key keeps the value
it had in the dictionary the loop started from. -/
lemma bandLoop_preserves (ops : MathOps) (r : GaiaRow) (l : List Band) :
    ∀ (d d2 : Record) (k : String), (∀ b ∈ l, bandKey b ≠ k) →
      bandLoop ops r l d = .ok d2 → d2 k = d k := by
  induction l with
  | nil =>
      intro d d2 k _ h
      injection h with h
      rw [h]
  | cons b rest ih =>
      intro d d2 k hk h
      cases hb : bandOk ops r b with
      | true =>
          rw [bandLoop, hb, if_pos rfl] at h
          rw [ih _ _ _ (fun b2 hb2 => hk b2 (List.mem_cons_of_mem b hb2)) h]
          unfold dinsert
          rw [if_neg]
          intro hkk
          exact hk b (List.mem_cons_self b rest) hkk.symm
      | false =>
          rw [bandLoop, hb] at h
          simp at h

/-- The `"parallax"` entry of a successfully computed parameter
dictionary. -/
lemma computeParams_parallax_field (ops : MathOps) (r : GaiaRow) (d : Record)
    (hcp : computeParams ops r = .ok d) :
    d "parallax" =
      some (.pair (corrected_plx r).toFloat (corrected_plx_err ops r).toFloat) := by
  simp only [computeParams] at hcp
  cases hplx : plxOk ops r with
  | false => rw [hplx] at hcp; simp at hcp
  | true =>
      rw [hplx, if_pos rfl] at hcp
      cases hbl : bandLoop ops r bandList (fun _ => none) with
      | error e => rw [hbl] at hcp; cases hcp
      | ok d0 =>
          rw [hbl] at hcp
          injection hcp with hd
          rw [← hd]
          by_cases hpos : 0 < (corrected_plx r).toFloat
          · rw [if_pos hpos]
            unfold dinsert
            rw [if_neg (by decide), if_pos rfl]
          · rw [if_neg hpos]
            unfold dinsert
            rw [if_pos rfl]

/-- The `"max_distance"` entry of a successfully computed parameter
dictionary: present exactly when the corrected parallax is positive. -/
lemma computeParams_max_distance_field (ops : MathOps) (r : GaiaRow) (d : Record)
    (hcp : computeParams ops r = .ok d) :
    d "max_distance" =
      (if 0 < (corrected_plx r).toFloat then
        some (.scalar (np_clip_lo (2000 / (corrected_plx r).toFloat) 100))
      else none) := by
  simp only [computeParams] at hcp
  cases hplx : plxOk ops r with
  | false => rw [hplx] at hcp; simp at hcp
  | true =>
      rw [hplx, if_pos rfl] at hcp
      cases hbl : bandLoop ops r bandList (fun _ => none) with
      | error e => rw [hbl] at hcp; cases hcp
      | ok d0 =>
          rw [hbl] at hcp
          injection hcp with hd
          rw [← hd]
          by_cases hpos : 0 < (corrected_plx r).toFloat
          · rw [if_pos hpos, if_pos hpos]
            unfold dinsert
            rw [if_pos rfl]
          · rw [if_neg hpos, if_neg hpos]
            unfold dinsert
            rw [if_neg (by decide)]
            exact bandLoop_preserves ops r bandList _ d0 "max_distance"
              (by decide) hbl

/-- Inversion of a successful lookup: the first filtered row's parameters
were computed and merged with the caller's kwargs. -/
lemma get_gaia_data_ok_inv (ops : MathOps) (rows : List GaiaRow)
    (approx_mag : Option ℚ) (mag_tol : ℚ) (kwargs : Record) (rec : Record)
    (r : GaiaRow) (rest : List GaiaRow)
    (hf : filterByMag approx_mag mag_tol rows = r :: rest)
    (hok : get_gaia_data ops rows approx_mag mag_tol kwargs = .ok rec) :
    ∃ d, computeParams ops r = .ok d ∧ rec = mergeKw d kwargs := by
  simp only [get_gaia_data, hf] at hok
  cases hcp : computeParams ops r with
  | error e => rw [hcp] at hok; cases hok
  | ok d =>
      rw [hcp] at hok
      injection hok with hd
      exact ⟨d, rfl, hd.symm⟩

/-- Claim C5: for every catalog row, the lookup returns a corrected
parallax equal to the catalog parallax plus `0.082` and a corrected
parallax error equal to `sqrt(catalog_parallax_error^2 + 0.033^2)`; the
correction is a deterministic (pure) function of the row, so two lookups
against an identical unchanged row yield identical corrected values. -/
theorem lookup_parallax_correction (ops : MathOps) (rows : List GaiaRow)
    (approx_mag : Option ℚ) (mag_tol : ℚ) (kwargs : Record) (p pe : ℚ)
    (r : GaiaRow) (rest : List GaiaRow) (rec : Record)
    (hf : filterByMag approx_mag mag_tol rows = r :: rest)
    (hp : r.parallax = .fin p) (hpe : r.parallax_error = .fin pe)
    (hkw : kwargs "parallax" = none)
    (hok : get_gaia_data ops rows approx_mag mag_tol kwargs = .ok rec) :
    rec "parallax" = some (Val.pair (p + 0.082) (ops.sqrt (pe ^ 2 + 0.033 ^ 2))) ∧
    get_gaia_data ops rows approx_mag mag_tol kwargs =
      get_gaia_data ops rows approx_mag mag_tol kwargs := by
  refine ⟨?_, rfl⟩
  rcases get_gaia_data_ok_inv ops rows approx_mag mag_tol kwargs rec r rest hf hok
    with ⟨d, hcp, hrec⟩
  rw [hrec]
  unfold mergeKw
  rw [hkw, computeParams_parallax_field ops r d hcp]
  unfold corrected_plx corrected_plx_err
  rw [hp, hpe]
  simp only [FVal.add, FVal.mul, FVal.sqrtF, FVal.toFloat]
  rw [← pow_two pe]

/-- Claim C6: the record returned by the lookup contains a `max_distance`
field exactly when the corrected parallax is strictly positive, and when
present its value is `clip(2000 / corrected_parallax, 100, inf)`, hence
never below 100. -/
theorem lookup_max_distance_iff (ops : MathOps) (rows : List GaiaRow)
    (approx_mag : Option ℚ) (mag_tol : ℚ) (kwargs : Record) (p : ℚ)
    (r : GaiaRow) (rest : List GaiaRow) (rec : Record)
    (hf : filterByMag approx_mag mag_tol rows = r :: rest)
    (hp : r.parallax = .fin p)
    (hkw : kwargs "max_distance" = none)
    (hok : get_gaia_data ops rows approx_mag mag_tol kwargs = .ok rec) :
    ((rec "max_distance").isSome = true ↔ 0 < p + 0.082) ∧
    (0 < p + 0.082 →
      rec "max_distance" =
        some (Val.scalar (np_clip_lo (2000 / (p + 0.082)) 100)) ∧
      100 ≤ np_clip_lo (2000 / (p + 0.082)) 100) := by
  rcases get_gaia_data_ok_inv ops rows approx_mag mag_tol kwargs rec r rest hf hok
    with ⟨d, hcp, hrec⟩
  have hmd : rec "max_distance" =
      (if 0 < p + 0.082 then
        some (.scalar (np_clip_lo (2000 / (p + 0.082)) 100))
      else none) := by
    rw [hrec]
    unfold mergeKw
    rw [hkw, computeParams_max_distance_field ops r d hcp]
    unfold corrected_plx
    rw [hp]
    simp only [FVal.add, FVal.toFloat]
  rw [hmd]
  by_cases hpos : 0 < p + 0.082
  · rw [if_pos hpos]
    exact ⟨by simp [hpos], fun _ => ⟨rfl, np_clip_lo_ge _ _⟩⟩
  · rw [if_neg hpos]
    exact ⟨by simp [hpos], fun h => absurd h hpos⟩

/-! ## Concrete instances for witnesses and counterexamples -/

/-- A fully finite catalog row: parallax 1, parallax error 1/2, all three
magnitudes 6, fluxes 2 with flux error 1/10. -/
def rowW : GaiaRow :=
  { parallax := .fin 1, parallax_error := .fin 0.5,
    phot_mean_mag := fun _ => .fin 6,
    phot_mean_flux := fun _ => .fin 2,
    phot_mean_flux_error := fun _ => .fin 0.1 }

/-- No extra keyword arguments. -/
def kwEmpty : Record := fun _ => none

/-- The record a lookup of `rowW` with no extra keyword arguments
produces. -/
def recW : Record :=
  match get_gaia_data opsW [rowW] none 1 kwEmpty with
  | .ok d => d
  | .error _ => fun _ => none

lemma computeParams_rowW_ok : ∃ d, computeParams opsW rowW = .ok d := by
  rw [computeParams_ok_iff]
  refine ⟨?_, ?_⟩
  · simp [plxOk, corrected_plx, corrected_plx_err, rowW, FVal.add, FVal.mul,
      FVal.sqrtF, FVal.isFinite]
  · intro b hb
    norm_num [bandOk, band_mag, band_err, rowW, FVal.div, FVal.mul,
      FVal.isFinite]

lemma recW_ok : get_gaia_data opsW [rowW] none 1 kwEmpty = .ok recW := by
  unfold recW
  rcases computeParams_rowW_ok with ⟨d, hd⟩
  simp only [get_gaia_data, filterByMag, hd]

theorem lookup_parallax_correction_witness :
    recW "parallax" =
      some (Val.pair ((1 : ℚ) + 0.082) (opsW.sqrt ((0.5 : ℚ) ^ 2 + 0.033 ^ 2))) ∧
    get_gaia_data opsW [rowW] none 1 kwEmpty =
      get_gaia_data opsW [rowW] none 1 kwEmpty :=
  lookup_parallax_correction opsW [rowW] none 1 kwEmpty 1 0.5 rowW [] recW
    rfl rfl rfl rfl recW_ok

theorem lookup_max_distance_iff_witness :
    ((recW "max_distance").isSome = true ↔ 0 < (1 : ℚ) + 0.082) ∧
    (0 < (1 : ℚ) + 0.082 →
      recW "max_distance" =
        some (Val.scalar (np_clip_lo (2000 / ((1 : ℚ) + 0.082)) 100)) ∧
      100 ≤ np_clip_lo (2000 / ((1 : ℚ) + 0.082)) 100) :=
  lookup_max_distance_iff opsW [rowW] none 1 kwEmpty 1 rowW [] recW
    rfl rfl rfl recW_ok

/-- Counterexample to claim C7 as stated: `rowW` has G magnitude 6, which
differs from `approx_mag = 5` by exactly the tolerance 1 — not by *more*
than the tolerance — yet the filter discards it (the code keeps a
candidate only under the strict comparison `< mag_tol`), so the lookup
raises the no-match error instead of retaining the candidate. -/
theorem magFilter_boundary_discarded :
    ¬ ((|(6 : ℚ) - 5|) > 1) ∧
    filterByMag (some 5) 1 [rowW] = [] ∧
    get_gaia_data opsW [rowW] (some 5) 1 kwEmpty = .error .noMatches := by
  have hkeep : magFilterKeep 5 1 rowW = false := by
    show decide ((|(6 : ℚ) - 5|) < 1) = false
    norm_num
  have hfil : filterByMag (some 5) 1 [rowW] = [] := by
    unfold filterByMag
    simp [List.filter, hkeep]
  exact ⟨by norm_num, hfil, by simp [get_gaia_data, hfil]⟩

/-- Claim C7 amended: when `approx_mag` is supplied, a cone-search
candidate is retained exactly when the absolute difference between its
catalog G magnitude and `approx_mag` is strictly less than `mag_tol` —
equivalently, it is discarded exactly when the difference is greater than
or equal to the tolerance, so a candidate at exactly the tolerance is
discarded. -/
theorem magFilter_strict_inequality (rows : List GaiaRow) (m tol x : ℚ)
    (r : GaiaRow) (hx : r.phot_mean_mag Band.G = .fin x) :
    r ∈ filterByMag (some m) tol rows ↔ r ∈ rows ∧ |x - m| < tol := by
  unfold filterByMag
  rw [List.mem_filter]
  unfold magFilterKeep
  rw [hx]
  simp

theorem magFilter_strict_inequality_witness :
    rowW ∈ filterByMag (some 5) 2 [rowW] ↔
      rowW ∈ [rowW] ∧ |(6 : ℚ) - 5| < 2 :=
  magFilter_strict_inequality [rowW] 5 2 6 rowW rfl

/-- Projection of a lookup result onto its `"parallax"` entry. -/
def parallaxField (res : Except GaiaError Record) : Option Val :=
  match res with
  | .ok rec => rec "parallax"
  | .error _ => none

/-- Extra keyword arguments clashing with the computed `"parallax"` key. -/
def kwClash : Record :=
  fun k => if k = "parallax" then some (Val.scalar 999) else none

/-- The record a lookup of `rowW` with the clashing kwargs produces. -/
def recW8 : Record :=
  match get_gaia_data opsW [rowW] none 1 kwClash with
  | .ok d => d
  | .error _ => fun _ => none

lemma recW8_ok : get_gaia_data opsW [rowW] none 1 kwClash = .ok recW8 := by
  unfold recW8
  rcases computeParams_rowW_ok with ⟨d, hd⟩
  simp only [get_gaia_data, filterByMag, hd]

/-- Counterexample to claim C8 as stated: `dict(params, **kwargs)` lets a
caller-supplied key overwrite a computed field.  With an extra keyword
argument `parallax = 999`, the returned record's parallax entry is the
caller's scalar, not the computed (value, error) pair. -/
theorem mergeKw_collision_overrides :
    parallaxField (get_gaia_data opsW [rowW] none 1 kwClash) =
      some (Val.scalar 999) ∧
    some (Val.scalar 999) ≠
      some (Val.pair ((1 : ℚ) + 0.082) (opsW.sqrt ((0.5 : ℚ) ^ 2 + 0.033 ^ 2))) := by
  refine ⟨?_, by simp⟩
  rw [recW8_ok]
  show recW8 "parallax" = some (Val.scalar 999)
  rcases get_gaia_data_ok_inv opsW [rowW] none 1 kwClash recW8 rowW [] rfl
    recW8_ok with ⟨d, hcp, hrec⟩
  rw [hrec]
  rfl

/-- Claim C8 amended: the final merge has last-write-wins semantics.  For
every key the caller does not supply, the returned record holds the
computed value; on a key collision the caller-supplied value replaces the
computed one, so computed fields are unchanged only for non-colliding
keys. -/
theorem lookup_merge_last_write_wins (ops : MathOps) (rows : List GaiaRow)
    (approx_mag : Option ℚ) (mag_tol : ℚ) (kwargs : Record) (rec : Record)
    (hok : get_gaia_data ops rows approx_mag mag_tol kwargs = .ok rec) :
    ∃ r rest d, filterByMag approx_mag mag_tol rows = r :: rest ∧
      computeParams ops r = .ok d ∧
      ∀ k, rec k =
        (match kwargs k with
        | some v => some v
        | none => d k) := by
  cases hf : filterByMag approx_mag mag_tol rows with
  | nil => simp [get_gaia_data, hf] at hok
  | cons r rest =>
      rcases get_gaia_data_ok_inv ops rows approx_mag mag_tol kwargs rec r rest
        hf hok with ⟨d, hcp, hrec⟩
      exact ⟨r, rest, d, rfl, hcp, fun k => by rw [hrec]; rfl⟩

theorem lookup_merge_last_write_wins_witness :
    ∃ r rest d, filterByMag none 1 [rowW] = r :: rest ∧
      computeParams opsW r = .ok d ∧
      ∀ k, recW8 k =
        (match kwClash k with
        | some v => some v
        | none => d k) :=
  lookup_merge_last_write_wins opsW [rowW] none 1 kwClash recW8 recW8_ok

end GaiaIsochrones
